import Mathlib

/-!
# QuestAI — verification of the request-orchestration layer

Shallow embedding of the QuestAI repository's core code:

* `src/unnamed/part_001` (the Gemini service): `RequestQueue`,
  `retryWithBackoff`, `getApiKey`, `extractQuestionsFromPage`, `performOCR`;
* `src/services/pdfService.ts`: the pure front of `cropDiagram`
  (argument validation and bounding-box normalization);
* `src/App.tsx`: `handleProcess` (per-page pipeline, aggregation, final
  sort) and `handleExportTXT`.

JavaScript numbers appearing in the claims are used only integrally
(coordinates, page numbers, retry counters), so they are embedded as `Int`
or `Nat`.  Fallible asynchronous operations are embedded as
`Except JsError`-valued functions; browser/network builtins
(`JSON.parse`, the model API, the canvas) are parameters of the embedded
functions, and the wall-clock/queue side effects the claims speak about are
returned explicitly as an effect trace.
-/

/-- Rate-limit configuration constant `MAX_CONCURRENT_REQUESTS = 10`
from `src/unnamed/part_001`. -/
def MAX_CONCURRENT_REQUESTS : Nat := 10

/-- Rate-limit configuration constant `INITIAL_RETRY_DELAY = 2000`
from `src/unnamed/part_001`. -/
def INITIAL_RETRY_DELAY : Nat := 2000

/-- Rate-limit configuration constant `MAX_RETRIES = 5`
from `src/unnamed/part_001`. -/
def MAX_RETRIES : Nat := 5

/-- A JavaScript error value as inspected by `retryWithBackoff`:
the fields `status`, `code` and `message` may each be absent. -/
structure JsError where
  status : Option Int
  code : Option Int
  message : Option String
deriving Repr, DecidableEq

/-- `String.prototype.includes(sub)`: `sub.data` occurs contiguously
inside `s.data`. -/
def jsIncludes (s sub : String) : Bool :=
  decide (sub.data <:+: s.data)

/-- The rate-limit classification of
`retryWithBackoff` (`src/unnamed/part_001`, line 51):
`error.status === 429 || error.code === 429 ||
 error.message?.includes('429') || error.message?.includes('quota')`.
An absent `message` makes the optional chainings falsy. -/
def isRateLimitError (e : JsError) : Bool :=
  e.status == some 429 || e.code == some 429 ||
    (match e.message with
     | some m => jsIncludes m "429" || jsIncludes m "quota"
     | none => false)

/-- `retryWithBackoff(operation, retries, delay)` from
`src/unnamed/part_001`, lines 48–59.  The stateful `operation` is embedded
as a function from the attempt index to that attempt's outcome.  Besides
the final outcome the embedding returns the number of times `operation`
was invoked and the list of waits (in ms) taken before each retry, in
order, so that the claims about the attempt budget and the doubling delays
can be stated. -/
def retryWithBackoff {α : Type} (operation : Nat → Except JsError α)
    (retries delay attempt : Nat) : Except JsError α × Nat × List Nat :=
  match operation attempt, retries with
  | Except.ok v, _ => (Except.ok v, 1, [])
  | Except.error e, 0 => (Except.error e, 1, [])
  | Except.error e, r + 1 =>
    if isRateLimitError e then
      let next := retryWithBackoff operation r (delay * 2) (attempt + 1)
      (next.1, next.2.1 + 1, delay :: next.2.2)
    else (Except.error e, 1, [])

/-- JavaScript string truthiness of a possibly-absent string:
truthy iff present and non-empty. -/
def truthyStr : Option String → Bool
  | some s => s != ""
  | none => false

/-- `getApiKey` from `src/unnamed/part_001`, lines 114–120:
`import.meta.env.VITE_API_KEY || localStorage.getItem('gemini_api_key') || ''`.
The two external lookups are parameters; `none` is JavaScript
`undefined`/`null`. -/
def getApiKey (viteApiKey localStorageGeminiKey : Option String) : String :=
  if truthyStr viteApiKey then viteApiKey.getD ""
  else if truthyStr localStorageGeminiKey then localStorageGeminiKey.getD ""
  else ""

/-- Outcome of the synchronous front of `cropDiagram`
(`src/services/pdfService.ts`, lines 53–62): either the promise resolves
to the empty string right away, or execution proceeds to the image load
with the order-normalized box.  The function only ever resolves (it never
rejects), so there is no error constructor. -/
inductive CropOutcome where
  | empty
  | proceed (normYmin normXmin normYmax normXmax : Int)
deriving Repr, DecidableEq

/-- The pure front of `cropDiagram(base64Image, bbox, ...)` from
`src/services/pdfService.ts`, lines 53–62: reject falsy images and
non-4-element boxes with an empty resolution, order-normalize the
coordinates with `min`/`max`, and resolve empty when either normalized
extent is below 1 unit (out of 1000); otherwise proceed to the image
load with the normalized box. -/
def cropDiagram (base64Image : String) (bbox : List Int) : CropOutcome :=
  if base64Image = "" ∨ bbox.length ≠ 4 then CropOutcome.empty
  else
    match bbox with
    | [ymin, xmin, ymax, xmax] =>
      let normXmin := min xmin xmax
      let normXmax := max xmin xmax
      let normYmin := min ymin ymax
      let normYmax := max ymin ymax
      if normXmax - normXmin < 1 ∨ normYmax - normYmin < 1 then CropOutcome.empty
      else CropOutcome.proceed normYmin normXmin normYmax normXmax
    | _ => CropOutcome.empty

example : cropDiagram "img" [100, 100, 100, 300] = CropOutcome.empty := by decide

example : cropDiagram "img" [200, 300, 100, 50] = CropOutcome.proceed 100 50 200 300 := by
  decide

example : @retryWithBackoff Unit (fun _ => Except.error ⟨some 429, none, none⟩) 2 7 0 =
    (Except.error ⟨some 429, none, none⟩, 3, [7, 14]) := rfl

/-- The `options` record of a `Question` (`src/types.ts`): four option
texts always present, plus optional per-option bounding boxes and, after
enrichment, optional per-option crop references and captions. -/
structure QOptions where
  A : String
  B : String
  C : String
  D : String
  A_diagram_bbox : Option (List Int) := none
  B_diagram_bbox : Option (List Int) := none
  C_diagram_bbox : Option (List Int) := none
  D_diagram_bbox : Option (List Int) := none
  A_diagram_url : Option String := none
  B_diagram_url : Option String := none
  C_diagram_url : Option String := none
  D_diagram_url : Option String := none
  A_diagram_alt_text : Option String := none
  B_diagram_alt_text : Option String := none
  C_diagram_alt_text : Option String := none
  D_diagram_alt_text : Option String := none
deriving Repr, DecidableEq

/-- The `Question` interface from `src/types.ts`. -/
structure Question where
  id : String
  question_number : Int
  question_text : String
  has_diagram : Bool
  diagram_description : Option String := none
  options : QOptions
  page_number : Int
  diagram_bbox : Option (List Int) := none
  diagram_url : Option String := none
  diagram_alt_text : Option String := none
deriving Repr, DecidableEq

/-- A question object as it appears in the parsed model response, before
`extractQuestionsFromPage` spreads in `id` and `page_number`
(the fields of `RESPONSE_SCHEMA` in `src/unnamed/part_001`). -/
structure RawQuestion where
  question_number : Int
  question_text : String
  has_diagram : Bool
  diagram_description : Option String := none
  diagram_bbox : Option (List Int) := none
  options : QOptions
deriving Repr, DecidableEq

/-- The object produced by `JSON.parse` on a successful response body:
`data.questions` may be absent (`data.questions || []`). -/
structure ParsedDoc where
  questions : Option (List RawQuestion)
deriving Repr, DecidableEq

/-- The spread `{...q, id: ` ... `, page_number: pageNumber}` performed on
each parsed question (`src/unnamed/part_001`, lines 156–160); `now` is
`Date.now()` and `idx` the map index. -/
def attachMeta (pageNumber : Int) (now : Int) (idx : Nat) (q : RawQuestion) : Question :=
  { id := "p" ++ toString pageNumber ++ "-q" ++ toString idx ++ "-" ++ toString now
    question_number := q.question_number
    question_text := q.question_text
    has_diagram := q.has_diagram
    diagram_description := q.diagram_description
    options := q.options
    page_number := pageNumber
    diagram_bbox := q.diagram_bbox
    diagram_url := none
    diagram_alt_text := none }

/-- The response-body handling of `extractQuestionsFromPage`
(`src/unnamed/part_001`, lines 150–160): a falsy `response.text`
(absent or empty) yields `[]`; otherwise the text goes through
`JSON.parse` — whose failure is re-thrown by the surrounding catch —
and the `questions` field, defaulted to `[]`, is mapped through the
metadata spread.  `jsonParse` is the `JSON.parse` builtin. -/
def handleResponseText (text : Option String)
    (jsonParse : String → Except JsError ParsedDoc)
    (pageNumber : Int) (now : Int) : Except JsError (List Question) :=
  match text with
  | none => Except.ok []
  | some t =>
    if t = "" then Except.ok []
    else
      match jsonParse t with
      | Except.error e => Except.error e
      | Except.ok doc =>
        Except.ok ((doc.questions.getD []).enum.map (fun p => attachMeta pageNumber now p.1 p.2))

/-- The externally observable side effects of one client call:
admission of a task to the shared `requestQueue`, and each backoff wait. -/
inductive Effect where
  | queueAdd
  | retryDelay (ms : Nat)
deriving Repr, DecidableEq

/-- The configuration error thrown by `extractQuestionsFromPage` and
`performOCR` when `getApiKey()` is falsy:
`new Error("API Key not found. Please configure it in settings.")`. -/
def apiKeyMissingError : JsError :=
  { status := none, code := none
    message := some "API Key not found. Please configure it in settings." }

/-- `extractQuestionsFromPage(base64Image, pageNumber)` from
`src/unnamed/part_001`, lines 122–164.  The credential sources are the
`getApiKey` parameters; `attempt i` is the outcome of the `i`-th
`ai.models.generateContent` call (its `response.text`, absent when the
response carries no text); `jsonParse` is the `JSON.parse` builtin.  The
returned trace records, in order, the queue admission and every backoff
wait; when the key is falsy the function throws before touching the
queue, so the trace is empty. -/
def extractQuestionsFromPage (viteApiKey localStorageGeminiKey : Option String)
    (attempt : Nat → Except JsError (Option String))
    (jsonParse : String → Except JsError ParsedDoc)
    (pageNumber : Int) (now : Int) : Except JsError (List Question) × List Effect :=
  let apiKey := getApiKey viteApiKey localStorageGeminiKey
  if apiKey = "" then (Except.error apiKeyMissingError, [])
  else
    let op : Nat → Except JsError (List Question) := fun i =>
      match attempt i with
      | Except.error e => Except.error e
      | Except.ok text => handleResponseText text jsonParse pageNumber now
    let r := retryWithBackoff op MAX_RETRIES INITIAL_RETRY_DELAY 0
    (r.1, Effect.queueAdd :: r.2.2.map Effect.retryDelay)

/-- `performOCR(base64Image)` from `src/unnamed/part_001`, lines 167–197:
same credential check, queue admission and retry discipline as
`extractQuestionsFromPage`; on success it returns `response.text || ""`. -/
def performOCR (viteApiKey localStorageGeminiKey : Option String)
    (attempt : Nat → Except JsError (Option String)) :
    Except JsError String × List Effect :=
  let apiKey := getApiKey viteApiKey localStorageGeminiKey
  if apiKey = "" then (Except.error apiKeyMissingError, [])
  else
    let op : Nat → Except JsError String := fun i =>
      match attempt i with
      | Except.error e => Except.error e
      | Except.ok text => Except.ok (text.getD "")
    let r := retryWithBackoff op MAX_RETRIES INITIAL_RETRY_DELAY 0
    (r.1, Effect.queueAdd :: r.2.2.map Effect.retryDelay)

/-!
## The bounded task queue

`RequestQueue` (`src/unnamed/part_001`, lines 9–44) runs on the
single-threaded cooperative JavaScript scheduler, so its state changes in
atomic synchronous bursts.  There are exactly two externally triggered
bursts:

* `add(task)` pushes the wrapped task onto `this.queue` and runs
  `processQueue()`, which either returns (at capacity, or nothing
  pending) or increments `activeRequests`, shifts the queue head and
  starts it (`await task()` is the yield point);
* a running task settling runs the `finally` block: `activeRequests--`
  followed by another `processQueue()` admission attempt.

The embedding is a labelled transition system over these two bursts;
`running` is the list of tasks whose `await task()` has started and not
yet settled (the code only tracks its cardinality, `activeRequests`).
`add` steps may fire at any point, which covers submissions made from
inside running tasks.
-/

/-- State of the `RequestQueue` instance: the pending `queue` array, the
tasks currently executing, and the `activeRequests` counter. -/
structure QueueState (τ : Type) where
  pending : List τ
  running : List τ
  activeRequests : Nat
deriving Repr, DecidableEq

/-- One call of `processQueue()` (`src/unnamed/part_001`, lines 26–43):
return unchanged when at capacity or when nothing is pending; otherwise
increment `activeRequests`, shift the head of the queue and start it. -/
def processQueue {τ : Type} (s : QueueState τ) : QueueState τ :=
  if s.activeRequests ≥ MAX_CONCURRENT_REQUESTS ∨ s.pending.length = 0 then s
  else
    match s.pending with
    | [] => s
    | t :: rest =>
      { pending := rest, running := s.running ++ [t],
        activeRequests := s.activeRequests + 1 }

/-- The synchronous burst triggered by `add(task)`: push the task, then
one `processQueue()` admission attempt. -/
def addStep {τ : Type} (s : QueueState τ) (t : τ) : QueueState τ :=
  processQueue { s with pending := s.pending ++ [t] }

/-- The synchronous burst triggered by a running task settling: the
`finally` block decrements `activeRequests` and runs one
`processQueue()` admission attempt. -/
def settleStep {τ : Type} [DecidableEq τ] (s : QueueState τ) (t : τ) : QueueState τ :=
  processQueue
    { s with running := s.running.erase t,
             activeRequests := s.activeRequests - 1 }

/-- The states the queue can reach from its initial empty state under any
interleaving of task submissions (also from inside running tasks) and
task settlements. -/
inductive QueueReachable {τ : Type} [DecidableEq τ] : QueueState τ → Prop where
  | init : QueueReachable ⟨[], [], 0⟩
  | add (s : QueueState τ) (t : τ) : QueueReachable s → QueueReachable (addStep s t)
  | settle (s : QueueState τ) (t : τ) :
      QueueReachable s → t ∈ s.running → QueueReachable (settleStep s t)

/-!
## The per-page pipeline of `handleProcess` (`src/App.tsx`, lines 83–154)

For each page the pipeline extracts questions, then for every question
launches one crop+caption pair per present bounding box (the main slot
and option slots A–D) and awaits them all with `Promise.all`.
`cropDiagram` always resolves (possibly to the empty string), and a
non-empty crop triggers a `performOCR` call whose rejection rejects that
slot's promise, hence the question's `Promise.all`, hence the page's
`Promise.all`, landing in the page-level catch.  The slots run
concurrently but mutate pairwise disjoint fields of the question and the
aggregate only observes the settled outcome, so the embedding settles
them in a fixed order; a rejection of any launched slot yields the same
observable as in the source: the page contributes no questions at all.
`crop` stands for `cropDiagram` applied to this page's image and
dimensions (its resolved string), and `ocr` for a settled `performOCR`
call on a crop url. -/

/-- The four option labels iterated by the pipeline. -/
inductive OptLabel where
  | A
  | B
  | C
  | D
deriving Repr, DecidableEq

/-- `q.options[label + '_diagram_bbox']`. -/
def optBbox (l : OptLabel) (o : QOptions) : Option (List Int) :=
  match l with
  | OptLabel.A => o.A_diagram_bbox
  | OptLabel.B => o.B_diagram_bbox
  | OptLabel.C => o.C_diagram_bbox
  | OptLabel.D => o.D_diagram_bbox

/-- `q.options[label + '_diagram_url']`. -/
def optUrl (l : OptLabel) (o : QOptions) : Option String :=
  match l with
  | OptLabel.A => o.A_diagram_url
  | OptLabel.B => o.B_diagram_url
  | OptLabel.C => o.C_diagram_url
  | OptLabel.D => o.D_diagram_url

/-- `q.options[label + '_diagram_alt_text']`. -/
def optAltText (l : OptLabel) (o : QOptions) : Option String :=
  match l with
  | OptLabel.A => o.A_diagram_alt_text
  | OptLabel.B => o.B_diagram_alt_text
  | OptLabel.C => o.C_diagram_alt_text
  | OptLabel.D => o.D_diagram_alt_text

/-- The two assignments
`q.options[label+'_diagram_url'] = url; q.options[label+'_diagram_alt_text'] = alt`. -/
def setOptUrlAlt (l : OptLabel) (url alt : String) (o : QOptions) : QOptions :=
  match l with
  | OptLabel.A => { o with A_diagram_url := some url, A_diagram_alt_text := some alt }
  | OptLabel.B => { o with B_diagram_url := some url, B_diagram_alt_text := some alt }
  | OptLabel.C => { o with C_diagram_url := some url, C_diagram_alt_text := some alt }
  | OptLabel.D => { o with D_diagram_url := some url, D_diagram_alt_text := some alt }

/-- The main-diagram slot (`src/App.tsx`, lines 107–116): launched when
`q.has_diagram && q.diagram_bbox`; a falsy crop url leaves the question
untouched, a truthy one assigns `diagram_url` and awaits `performOCR`,
whose rejection rejects the slot. -/
def enrichMain (crop : List Int → String) (ocr : String → Except JsError String)
    (q : Question) : Except JsError Question :=
  match q.has_diagram, q.diagram_bbox with
  | true, some bbox =>
    let url := crop bbox
    if url ≠ "" then
      match ocr url with
      | Except.error e => Except.error e
      | Except.ok alt =>
        Except.ok { q with diagram_url := some url, diagram_alt_text := some alt }
    else Except.ok q
  | _, _ => Except.ok q

/-- One option slot (`src/App.tsx`, lines 117–131): launched when the
option's bbox is present with `bbox.length === 4`; same crop/ocr
discipline as the main slot, writing under that option's keys. -/
def enrichOption (crop : List Int → String) (ocr : String → Except JsError String)
    (l : OptLabel) (q : Question) : Except JsError Question :=
  match optBbox l q.options with
  | some bbox =>
    if bbox.length = 4 then
      let url := crop bbox
      if url ≠ "" then
        match ocr url with
        | Except.error e => Except.error e
        | Except.ok alt => Except.ok { q with options := setOptUrlAlt l url alt q.options }
      else Except.ok q
    else Except.ok q
  | none => Except.ok q

/-- The `Promise.all(cropAndOcrPromises)` for one question
(`src/App.tsx`, lines 105–132): all launched slots must settle; a
rejection of any launched slot rejects the question's enrichment. -/
def enrichQuestion (crop : List Int → String) (ocr : String → Except JsError String)
    (q : Question) : Except JsError Question := do
  let q1 ← enrichMain crop ocr q
  let q2 ← enrichOption crop ocr OptLabel.A q1
  let q3 ← enrichOption crop ocr OptLabel.B q2
  let q4 ← enrichOption crop ocr OptLabel.C q3
  enrichOption crop ocr OptLabel.D q4

/-- One page's contribution to `allExtractedQuestions`
(`src/App.tsx`, lines 101–141): the page-level try/catch turns a
rejection of the extraction call or of any question's enrichment into an
empty contribution; otherwise the page pushes its enriched questions. -/
def processPage (extractRes : Except JsError (List Question))
    (crop : List Int → String) (ocr : String → Except JsError String) : List Question :=
  match extractRes with
  | Except.error _ => []
  | Except.ok pageQuestions =>
    match pageQuestions.mapM (enrichQuestion crop ocr) with
    | Except.error _ => []
    | Except.ok enriched => enriched

/-- The comparator of the final sort (`src/App.tsx`, line 145):
`(a, b) => (a.page_number - b.page_number) || (a.question_number - b.question_number)`,
i.e. ascending page number with ascending question number as
tie-breaker. -/
def questionLE (a b : Question) : Bool :=
  if a.page_number < b.page_number then true
  else if b.page_number < a.page_number then false
  else decide (a.question_number ≤ b.question_number)

/-- `allExtractedQuestions.sort(comparator)`: a stable sort under
`questionLE`. -/
def sortQuestions (qs : List Question) : List Question :=
  qs.mergeSort questionLE

/-- The `ProcessStep` enum from `src/types.ts`. -/
inductive ProcessStep where
  | IDLE
  | LOADING_PDF
  | CONVERTING_PAGES
  | EXTRACTING_DATA
  | COMPLETED
  | ERROR
deriving Repr, DecidableEq

/-- The `PageData` interface from `src/types.ts`. -/
structure PageData where
  image : String
  pageNumber : Int
  width : Int
  height : Int
deriving Repr, DecidableEq

/-- `handleProcess(file)` from `src/App.tsx`, lines 83–154, observed at
its terminal state: `convert` is the settled outcome of
`convertPdfToImages(file)`; `extract p` the settled outcome of page `p`'s
`extractQuestionsFromPage` call; `crop p` this page's `cropDiagram`; and
`ocr` a settled `performOCR`.  Page failures are caught per page, so the
run ends in `COMPLETED` with the sorted aggregate unless the initial
document load itself rejected, which is the only path to the `ERROR`
step.  Pages complete in an unspecified interleaving; the aggregate is
pushed per page and then sorted, and the embedding fixes the push order
to page order (the claims checked against it do not depend on the
interleaving). -/
def handleProcess (convert : Except JsError (List PageData))
    (extract : PageData → Except JsError (List Question))
    (crop : PageData → List Int → String)
    (ocr : String → Except JsError String) : ProcessStep × List Question :=
  match convert with
  | Except.error _ => (ProcessStep.ERROR, [])
  | Except.ok pages =>
    let allExtractedQuestions :=
      (pages.map (fun p => processPage (extract p) (crop p) ocr)).flatten
    (ProcessStep.COMPLETED, sortQuestions allExtractedQuestions)

/-- The per-question block appended by `handleExportTXT`
(`src/App.tsx`, lines 614–620). -/
def questionTxtBlock (q : Question) : String :=
  "QUESTION " ++ toString q.question_number ++ "\n--------------------------\n"
    ++ q.question_text ++ "\n\n"
    ++ "(A) " ++ q.options.A ++ "\n(B) " ++ q.options.B
    ++ "\n(C) " ++ q.options.C ++ "\n(D) " ++ q.options.D ++ "\n\n"
    ++ (if truthyStr q.diagram_url then "[Main Diagram Attached]\n" else "")
    ++ "\n"

/-- `handleExportTXT` from `src/App.tsx`, lines 612–627: the header
followed by one block per question, in list order.  `dateStr` stands for
`new Date().toLocaleString()`. -/
def handleExportTXT (fileName dateStr : String) (questions : List Question) : String :=
  questions.foldl (fun text q => text ++ questionTxtBlock q)
    ("QUESTAI EXTRACTION REPORT\nFILE: " ++ fileName ++ "\nDATE: " ++ dateStr ++ "\n\n")

/-- `sub` occurs contiguously in `s` (string containment). -/
def strContains (s sub : String) : Prop :=
  ∃ pre post : String, s = pre ++ sub ++ post

theorem strContains_iff (s sub : String) : strContains s sub ↔ sub.data <:+: s.data := by
  constructor
  · rintro ⟨pre, post, rfl⟩
    exact ⟨pre.data, post.data, by simp⟩
  · rintro ⟨l, r, h⟩
    refine ⟨⟨l⟩, ⟨r⟩, String.ext ?_⟩
    simpa using h.symm

instance (s sub : String) : Decidable (strContains s sub) :=
  decidable_of_iff _ (strContains_iff s sub).symm

/-!
## Theorems
-/

/-- C10: `getApiKey` resolves the credential with fixed precedence — a
non-empty environment key (`VITE_API_KEY`) is always returned in
preference to the locally persisted key (`localStorage 'gemini_api_key'`),
which is returned when the environment key is absent or empty; the empty
string is returned exactly when both are absent (missing or empty).  So
an environment key silently shadows any key the user saved in
settings. -/
theorem getApiKey_precedence (envKey localKey : Option String) :
    (∀ s : String, envKey = some s → s ≠ "" → getApiKey envKey localKey = s) ∧
    (truthyStr envKey = false → ∀ t : String, localKey = some t → t ≠ "" →
      getApiKey envKey localKey = t) ∧
    (getApiKey envKey localKey = "" ↔ truthyStr envKey = false ∧ truthyStr localKey = false) := by
  refine ⟨?_, ?_, ?_⟩
  · rintro s rfl hs
    simp [getApiKey, truthyStr, hs]
  · intro henv t hloc ht
    subst hloc
    rcases envKey with _ | s
    · simp [getApiKey, truthyStr, ht]
    · simp only [truthyStr, bne_eq_false_iff_eq] at henv
      simp [getApiKey, truthyStr, henv, ht]
  · rcases envKey with _ | s <;> rcases localKey with _ | t
    · simp [getApiKey, truthyStr]
    · by_cases ht : t = "" <;> simp [getApiKey, truthyStr, ht]
    · by_cases hs : s = "" <;> simp [getApiKey, truthyStr, hs]
    · by_cases hs : s = "" <;> by_cases ht : t = "" <;>
        simp [getApiKey, truthyStr, hs, ht]

/-- Witness for `getApiKey_precedence`: a saved local key is shadowed by
the environment key. -/
theorem getApiKey_precedence_witness :
    getApiKey (some "env-key") (some "saved-key") = "env-key" :=
  (getApiKey_precedence (some "env-key") (some "saved-key")).1 "env-key" rfl (by decide)

/-- C7: when the credential is absent (`getApiKey` returns `""`), both
`extractQuestionsFromPage` and `performOCR` fail immediately with the
configuration error and an empty effect trace: no task is admitted to
the request queue and no retry delay is incurred. -/
theorem missing_key_fails_before_queue (envKey localKey : Option String)
    (attempt attemptOcr : Nat → Except JsError (Option String))
    (jsonParse : String → Except JsError ParsedDoc) (pageNumber now : Int)
    (h : getApiKey envKey localKey = "") :
    extractQuestionsFromPage envKey localKey attempt jsonParse pageNumber now =
      (Except.error apiKeyMissingError, []) ∧
    performOCR envKey localKey attemptOcr = (Except.error apiKeyMissingError, []) := by
  unfold extractQuestionsFromPage performOCR
  simp [h]

/-- Witness for `missing_key_fails_before_queue` with both credential
sources absent. -/
theorem missing_key_fails_before_queue_witness :
    extractQuestionsFromPage none none (fun _ => Except.ok none)
        (fun _ => Except.ok ⟨none⟩) 1 0 =
      (Except.error apiKeyMissingError, []) ∧
    performOCR none none (fun _ => Except.ok none) =
      (Except.error apiKeyMissingError, []) :=
  missing_key_fails_before_queue none none (fun _ => Except.ok none)
    (fun _ => Except.ok none) (fun _ => Except.ok ⟨none⟩) 1 0 rfl

/-- C6: `cropDiagram` order-normalizes the bounding box before computing
extents — swapping the two y-coordinates or the two x-coordinates does
not change the outcome — and a box whose normalized width or height
extent is below 1 unit (out of 1000) resolves to the empty result (the
function only ever resolves; it has no rejection path).  When it
proceeds, the coordinates are the order-normalized ones and both extents
are at least 1. -/
theorem cropDiagram_normalization (img : String) (ymin xmin ymax xmax : Int) :
    (cropDiagram img [ymin, xmin, ymax, xmax] = cropDiagram img [ymax, xmin, ymin, xmax] ∧
     cropDiagram img [ymin, xmin, ymax, xmax] = cropDiagram img [ymin, xmax, ymax, xmin]) ∧
    (max xmin xmax - min xmin xmax < 1 ∨ max ymin ymax - min ymin ymax < 1 →
      cropDiagram img [ymin, xmin, ymax, xmax] = CropOutcome.empty) ∧
    (∀ a b c d : Int,
      cropDiagram img [ymin, xmin, ymax, xmax] = CropOutcome.proceed a b c d →
      a = min ymin ymax ∧ b = min xmin xmax ∧ c = max ymin ymax ∧ d = max xmin xmax ∧
      a ≤ c ∧ b ≤ d ∧ 1 ≤ c - a ∧ 1 ≤ d - b) := by
  by_cases himg : img = ""
  · simp [cropDiagram, himg]
  · have hcons : ∀ p q r t : Int, cropDiagram img [p, q, r, t] =
        if q ⊔ t - q ⊓ t < 1 ∨ p ⊔ r - p ⊓ r < 1 then CropOutcome.empty
        else CropOutcome.proceed (p ⊓ r) (q ⊓ t) (p ⊔ r) (q ⊔ t) := by
      intro p q r t
      simp [cropDiagram, himg]
    refine ⟨⟨?_, ?_⟩, ?_, ?_⟩
    · rw [hcons, hcons, min_comm ymax ymin, max_comm ymax ymin]
    · rw [hcons, hcons, min_comm xmax xmin, max_comm xmax xmin]
    · intro hdeg
      rw [hcons, if_pos (by omega)]
    · intro a b c d h
      rw [hcons] at h
      by_cases hdeg : xmin ⊔ xmax - xmin ⊓ xmax < 1 ∨ ymin ⊔ ymax - ymin ⊓ ymax < 1
      · rw [if_pos hdeg] at h
        simp at h
      · rw [if_neg hdeg] at h
        injection h with h1 h2 h3 h4
        refine ⟨h1.symm, h2.symm, h3.symm, h4.symm, ?_, ?_, ?_, ?_⟩ <;> omega

/-- Witness for `cropDiagram_normalization`: a degenerate box
(zero height extent) resolves empty. -/
theorem cropDiagram_normalization_witness :
    cropDiagram "img" [100, 100, 100, 300] = CropOutcome.empty :=
  (cropDiagram_normalization "img" 100 100 100 300).2.1 (Or.inr (by decide))

theorem retryWithBackoff_ok {α : Type} (op : Nat → Except JsError α) (R d a : Nat)
    (v : α) (h : op a = Except.ok v) :
    retryWithBackoff op R d a = (Except.ok v, 1, []) := by
  cases R <;> simp [retryWithBackoff, h]

theorem retryWithBackoff_err_zero {α : Type} (op : Nat → Except JsError α) (d a : Nat)
    (e : JsError) (h : op a = Except.error e) :
    retryWithBackoff op 0 d a = (Except.error e, 1, []) := by
  simp [retryWithBackoff, h]

theorem retryWithBackoff_err_rl {α : Type} (op : Nat → Except JsError α) (r d a : Nat)
    (e : JsError) (h : op a = Except.error e) (hrl : isRateLimitError e = true) :
    retryWithBackoff op (r + 1) d a =
      ((retryWithBackoff op r (d * 2) (a + 1)).1,
       (retryWithBackoff op r (d * 2) (a + 1)).2.1 + 1,
       d :: (retryWithBackoff op r (d * 2) (a + 1)).2.2) := by
  simp [retryWithBackoff, h, hrl]

theorem retryWithBackoff_err_fatal {α : Type} (op : Nat → Except JsError α) (R d a : Nat)
    (e : JsError) (h : op a = Except.error e) (hrl : isRateLimitError e = false) :
    retryWithBackoff op R d a = (Except.error e, 1, []) := by
  cases R <;> simp [retryWithBackoff, h, hrl]

theorem retryWithBackoff_attempts_pos {α : Type} (op : Nat → Except JsError α)
    (R d a : Nat) : 1 ≤ (retryWithBackoff op R d a).2.1 := by
  rcases hop : op a with e | v
  · cases R with
    | zero => simp [retryWithBackoff_err_zero op _ _ _ hop]
    | succ r =>
      by_cases hrl : isRateLimitError e
      · simp [retryWithBackoff_err_rl op r d a e hop hrl]
      · simp [retryWithBackoff_err_fatal op _ _ _ _ hop (by simpa using hrl)]
  · simp [retryWithBackoff_ok op R d a v hop]

/-- C2: for an operation wrapped by `retryWithBackoff` with retry budget
`R` and initial delay `d`: the operation is invoked at most `R + 1`
times; the waits taken before the retries are exactly
`d, 2·d, 4·d, …` (each wait double the previous one, the first being
`d`); a failure not classified as a rate-limit error propagates
immediately with no wait and no further invocation; and with `R = 0` the
operation runs exactly once and its outcome — in particular its first
failure — propagates unchanged. -/
theorem retryWithBackoff_spec {α : Type} (op : Nat → Except JsError α) (R d a : Nat) :
    (retryWithBackoff op R d a).2.1 ≤ R + 1 ∧
    (retryWithBackoff op R d a).2.2 =
      (List.range ((retryWithBackoff op R d a).2.1 - 1)).map (fun i => d * 2 ^ i) ∧
    (∀ e, op a = Except.error e → isRateLimitError e = false →
      retryWithBackoff op R d a = (Except.error e, 1, [])) ∧
    (R = 0 → retryWithBackoff op R d a = (op a, 1, [])) := by
  induction R generalizing d a with
  | zero =>
    rcases hop : op a with e | v
    · rw [retryWithBackoff_err_zero op d a e hop]
      refine ⟨by simp, by simp, ?_, fun _ => rfl⟩
      intro e' he' _
      injection he' with h
      rw [h]
    · rw [retryWithBackoff_ok op 0 d a v hop]
      refine ⟨by simp, by simp, ?_, fun _ => rfl⟩
      intro e' he' _
      simp at he'
  | succ r ih =>
    rcases hop : op a with e | v
    · by_cases hrl : isRateLimitError e
      · rw [retryWithBackoff_err_rl op r d a e hop hrl]
        obtain ⟨ih1, ih2, -, -⟩ := ih (d * 2) (a + 1)
        have hpos := retryWithBackoff_attempts_pos op r (d * 2) (a + 1)
        obtain ⟨m, hm⟩ : ∃ m, (retryWithBackoff op r (d * 2) (a + 1)).2.1 = m + 1 :=
          ⟨(retryWithBackoff op r (d * 2) (a + 1)).2.1 - 1, by omega⟩
        refine ⟨Nat.succ_le_succ ih1, ?_, ?_, fun h => absurd h (Nat.succ_ne_zero r)⟩
        · show d :: (retryWithBackoff op r (d * 2) (a + 1)).2.2 =
            (List.range ((retryWithBackoff op r (d * 2) (a + 1)).2.1 + 1 - 1)).map
              (fun i => d * 2 ^ i)
          rw [ih2, hm]
          simp only [Nat.add_sub_cancel, List.range_succ_eq_map, List.map_cons,
            List.map_map, List.cons.injEq]
          refine ⟨by simp, List.map_congr_left fun i _ => ?_⟩
          simp only [Function.comp_apply, pow_succ]
          ring
        · intro e' he' hrl'
          injection he' with h
          subst h
          rw [hrl] at hrl'
          cases hrl'
      · have hfatal := retryWithBackoff_err_fatal op (r + 1) d a e hop (by simpa using hrl)
        rw [hfatal]
        refine ⟨by simp, by simp, ?_, fun h => absurd h (Nat.succ_ne_zero r)⟩
        intro e' he' _
        injection he' with h
        rw [h]
    · rw [retryWithBackoff_ok op (r + 1) d a v hop]
      refine ⟨by simp, by simp, ?_, fun h => absurd h (Nat.succ_ne_zero r)⟩
      intro e' he' _
      simp at he'

/-- Witness for `retryWithBackoff_spec`: a non-rate-limit failure (plain
message, no 429 status) propagates with a single invocation and no
wait. -/
theorem retryWithBackoff_spec_witness :
    @retryWithBackoff Unit (fun _ => Except.error ⟨none, none, some "boom"⟩) 5 2000 0 =
      (Except.error ⟨none, none, some "boom"⟩, 1, []) :=
  (retryWithBackoff_spec (fun _ => Except.error ⟨none, none, some "boom"⟩) 5 2000 0).2.2.1
    ⟨none, none, some "boom"⟩ rfl (by decide)

theorem processQueue_admits {τ : Type} (s : QueueState τ) (t : τ) (rest : List τ)
    (hp : s.pending = t :: rest) (hcap : s.activeRequests < MAX_CONCURRENT_REQUESTS) :
    processQueue s = ⟨rest, s.running ++ [t], s.activeRequests + 1⟩ := by
  simp [processQueue, hp, Nat.not_le.mpr hcap]

theorem processQueue_inv {τ : Type} (s : QueueState τ)
    (h1 : s.activeRequests = s.running.length)
    (h2 : s.activeRequests ≤ MAX_CONCURRENT_REQUESTS) :
    (processQueue s).activeRequests = (processQueue s).running.length ∧
    (processQueue s).activeRequests ≤ MAX_CONCURRENT_REQUESTS := by
  unfold processQueue
  split
  · exact ⟨h1, h2⟩
  · rename_i hcond
    push_neg at hcond
    obtain ⟨hcap, -⟩ := hcond
    match hs : s.pending with
    | [] => exact ⟨h1, h2⟩
    | t :: rest =>
      refine ⟨by simp [h1], ?_⟩
      simp only
      omega

/-- Both counters of the queue state agree and never exceed the limit,
in every reachable state. -/
theorem queue_inv {τ : Type} [DecidableEq τ] (s : QueueState τ) (h : QueueReachable s) :
    s.activeRequests = s.running.length ∧
    s.activeRequests ≤ MAX_CONCURRENT_REQUESTS := by
  induction h with
  | init => exact ⟨rfl, by simp [MAX_CONCURRENT_REQUESTS]⟩
  | add s t hs ih => exact processQueue_inv _ ih.1 ih.2
  | settle s t hs hmem ih =>
    have hlen : (s.running.erase t).length = s.running.length - 1 :=
      List.length_erase_of_mem hmem
    have hpos : 0 < s.running.length := List.length_pos_of_mem hmem
    refine processQueue_inv _ ?_ ?_
    · show s.activeRequests - 1 = (s.running.erase t).length
      omega
    · show s.activeRequests - 1 ≤ MAX_CONCURRENT_REQUESTS
      omega

/-- C1: in every state the `RequestQueue` can reach under any pattern of
task submissions (including submissions made from inside running tasks)
and task settlements, the number of tasks executing at the same instant
never exceeds `MAX_CONCURRENT_REQUESTS = 10`; `activeRequests` equals
the number of tasks started and not yet settled (it is incremented in
the same synchronous burst that starts a task and decremented when the
task settles); and admission among waiting tasks is FIFO: whenever
capacity allows, the admission attempt starts exactly the head of the
pending queue (tasks are pushed at the back and shifted from the
front). -/
theorem requestQueue_concurrency_bound {τ : Type} [DecidableEq τ] (s : QueueState τ)
    (h : QueueReachable s) :
    s.running.length ≤ MAX_CONCURRENT_REQUESTS ∧
    s.activeRequests = s.running.length ∧
    (∀ t rest, s.pending = t :: rest → s.activeRequests < MAX_CONCURRENT_REQUESTS →
      processQueue s = ⟨rest, s.running ++ [t], s.activeRequests + 1⟩) := by
  obtain ⟨h1, h2⟩ := queue_inv s h
  exact ⟨h1 ▸ h2, h1, fun t rest hp hcap => processQueue_admits s t rest hp hcap⟩

/-- Witness for `requestQueue_concurrency_bound` at the reachable state
obtained by submitting tasks `1` and `2` to the empty queue. -/
theorem requestQueue_concurrency_bound_witness :
    (addStep (addStep (⟨[], [], 0⟩ : QueueState Nat) 1) 2).running.length ≤
        MAX_CONCURRENT_REQUESTS ∧
    (addStep (addStep (⟨[], [], 0⟩ : QueueState Nat) 1) 2).activeRequests =
      (addStep (addStep (⟨[], [], 0⟩ : QueueState Nat) 1) 2).running.length ∧
    (∀ t rest,
      (addStep (addStep (⟨[], [], 0⟩ : QueueState Nat) 1) 2).pending = t :: rest →
      (addStep (addStep (⟨[], [], 0⟩ : QueueState Nat) 1) 2).activeRequests <
        MAX_CONCURRENT_REQUESTS →
      processQueue (addStep (addStep (⟨[], [], 0⟩ : QueueState Nat) 1) 2) =
        ⟨rest, (addStep (addStep (⟨[], [], 0⟩ : QueueState Nat) 1) 2).running ++ [t],
         (addStep (addStep (⟨[], [], 0⟩ : QueueState Nat) 1) 2).activeRequests + 1⟩) :=
  requestQueue_concurrency_bound (addStep (addStep (⟨[], [], 0⟩ : QueueState Nat) 1) 2)
    (QueueReachable.add _ 2 (QueueReachable.add _ 1 QueueReachable.init))

/-- The ordering the final sort is specified to produce: page number
ascending, question number ascending as tie-breaker. -/
def pageQuestionOrder (a b : Question) : Prop :=
  a.page_number < b.page_number ∨
    (a.page_number = b.page_number ∧ a.question_number ≤ b.question_number)

theorem questionLE_iff (a b : Question) : questionLE a b = true ↔ pageQuestionOrder a b := by
  unfold questionLE pageQuestionOrder
  split_ifs with h1 h2 <;> simp <;> omega

theorem questionLE_trans (a b c : Question) (h1 : questionLE a b) (h2 : questionLE b c) :
    questionLE a c := by
  rw [questionLE_iff] at *
  unfold pageQuestionOrder at *
  omega

theorem questionLE_total (a b : Question) : questionLE a b || questionLE b a := by
  by_cases h : questionLE a b = true
  · simp [h]
  · have hab : ¬ pageQuestionOrder a b := fun hpq => h ((questionLE_iff a b).mpr hpq)
    have hba : pageQuestionOrder b a := by
      unfold pageQuestionOrder at hab ⊢
      omega
    simp [(questionLE_iff b a).mpr hba]

/-- C8: the orchestrator's final sort produces a list ordered by page
number ascending with question number ascending as tie-breaker, is a
permutation of its input, is a no-op on any list already sorted by
(page number, question number), and is idempotent — so the final order
is deterministic given the same per-page results. -/
theorem final_sort_spec (qs : List Question) :
    (sortQuestions qs).Pairwise pageQuestionOrder ∧
    List.Perm (sortQuestions qs) qs ∧
    (∀ l : List Question, l.Pairwise pageQuestionOrder → sortQuestions l = l) ∧
    sortQuestions (sortQuestions qs) = sortQuestions qs := by
  have hsorted : (sortQuestions qs).Pairwise (fun a b => questionLE a b = true) :=
    List.sorted_mergeSort (fun a b c => questionLE_trans a b c) questionLE_total qs
  have hnoop : ∀ l : List Question, l.Pairwise pageQuestionOrder → sortQuestions l = l := by
    intro l hl
    exact List.mergeSort_of_sorted (hl.imp (fun h => (questionLE_iff _ _).mpr h))
  refine ⟨hsorted.imp (fun h => (questionLE_iff _ _).mp h), List.mergeSort_perm qs _,
    hnoop, ?_⟩
  exact hnoop _ (hsorted.imp (fun h => (questionLE_iff _ _).mp h))

/-- Witness for `final_sort_spec`: re-sorting a concrete already-sorted
two-question list is a no-op. -/
theorem final_sort_spec_witness :
    sortQuestions
      [{ id := "a", question_number := 1, question_text := "t1", has_diagram := false,
         options := { A := "a", B := "b", C := "c", D := "d" }, page_number := 1 },
       { id := "b", question_number := 2, question_text := "t2", has_diagram := false,
         options := { A := "a", B := "b", C := "c", D := "d" }, page_number := 1 }] =
      [{ id := "a", question_number := 1, question_text := "t1", has_diagram := false,
         options := { A := "a", B := "b", C := "c", D := "d" }, page_number := 1 },
       { id := "b", question_number := 2, question_text := "t2", has_diagram := false,
         options := { A := "a", B := "b", C := "c", D := "d" }, page_number := 1 }] :=
  (final_sort_spec []).2.2.1 _
    (by
      refine List.pairwise_cons.mpr ⟨?_, List.pairwise_singleton _ _⟩
      intro b hb
      rw [List.mem_singleton] at hb
      subst hb
      exact Or.inr ⟨rfl, by norm_num⟩)

/-- C5: in a three-page document where the middle page's extraction call
fails terminally (after retry exhaustion), the aggregate is exactly the
sorted concatenation of the other two pages' contributions — the failing
page contributes zero questions, every question of the other pages is
kept — and the run still ends in the `COMPLETED` step (no fatal error
state). -/
theorem page_failure_isolation (p1 p2 p3 : PageData)
    (extract : PageData → Except JsError (List Question))
    (crop : PageData → List Int → String) (ocr : String → Except JsError String)
    (e : JsError) (h2 : extract p2 = Except.error e) :
    handleProcess (Except.ok [p1, p2, p3]) extract crop ocr =
      (ProcessStep.COMPLETED,
        sortQuestions (processPage (extract p1) (crop p1) ocr ++
          processPage (extract p3) (crop p3) ocr)) ∧
    (∀ q, q ∈ (handleProcess (Except.ok [p1, p2, p3]) extract crop ocr).2 ↔
      q ∈ processPage (extract p1) (crop p1) ocr ∨
      q ∈ processPage (extract p3) (crop p3) ocr) := by
  have hpage2 : processPage (extract p2) (crop p2) ocr = [] := by
    rw [h2]
    rfl
  have hmain : handleProcess (Except.ok [p1, p2, p3]) extract crop ocr =
      (ProcessStep.COMPLETED,
        sortQuestions (processPage (extract p1) (crop p1) ocr ++
          processPage (extract p3) (crop p3) ocr)) := by
    simp [handleProcess, hpage2]
  refine ⟨hmain, fun q => ?_⟩
  rw [hmain]
  show q ∈ sortQuestions _ ↔ _
  rw [sortQuestions, List.mem_mergeSort, List.mem_append]

/-- Concrete option texts used by the witness scenarios. -/
def optsW : QOptions :=
  { A := "opt a", B := "opt b", C := "opt c", D := "opt d" }

/-- A concrete diagram-free question on page `n`, used by the witness
scenarios. -/
def qW (n : Int) : Question :=
  { id := "q" ++ toString n
    question_number := 1
    question_text := "text"
    has_diagram := false
    options := optsW
    page_number := n }

/-- A concrete terminal (non-rate-limit) server error. -/
def errW : JsError := ⟨some 500, none, some "boom"⟩

/-- A concrete extraction outcome function: page 2 fails terminally,
every other page yields one question. -/
def extractW : PageData → Except JsError (List Question) := fun p =>
  if p.pageNumber = 2 then Except.error errW else Except.ok [qW p.pageNumber]

/-- Witness for `page_failure_isolation`: page 2 of a concrete 3-page
document fails, pages 1 and 3 each contribute their question. -/
theorem page_failure_isolation_witness :
    handleProcess
        (Except.ok [⟨"img1", 1, 100, 100⟩, ⟨"img2", 2, 100, 100⟩, ⟨"img3", 3, 100, 100⟩])
        extractW (fun _ _ => "") (fun _ => Except.ok "cap") =
      (ProcessStep.COMPLETED,
        sortQuestions
          (processPage (extractW ⟨"img1", 1, 100, 100⟩) (fun _ => "") (fun _ => Except.ok "cap") ++
           processPage (extractW ⟨"img3", 3, 100, 100⟩) (fun _ => "") (fun _ => Except.ok "cap"))) :=
  (page_failure_isolation ⟨"img1", 1, 100, 100⟩ ⟨"img2", 2, 100, 100⟩ ⟨"img3", 3, 100, 100⟩
    extractW (fun _ _ => "") (fun _ => Except.ok "cap") errW rfl).1

theorem extract_key_present (envKey localKey : Option String)
    (attempt : Nat → Except JsError (Option String))
    (jsonParse : String → Except JsError ParsedDoc) (pageNumber now : Int)
    (hkey : getApiKey envKey localKey ≠ "") :
    extractQuestionsFromPage envKey localKey attempt jsonParse pageNumber now =
      ((retryWithBackoff (fun i =>
          match attempt i with
          | Except.error e => Except.error e
          | Except.ok text => handleResponseText text jsonParse pageNumber now)
          MAX_RETRIES INITIAL_RETRY_DELAY 0).1,
       Effect.queueAdd ::
         (retryWithBackoff (fun i =>
            match attempt i with
            | Except.error e => Except.error e
            | Except.ok text => handleResponseText text jsonParse pageNumber now)
            MAX_RETRIES INITIAL_RETRY_DELAY 0).2.2.map Effect.retryDelay) := by
  simp [extractQuestionsFromPage, hkey]

/-- The model response body used to exercise the malformed-body path:
`JSON.parse("not-json")` throws a `SyntaxError`; the parse builtin is
modelled at exactly this probed input (its message contains neither
`"429"` nor `"quota"`, so the thrown error is not retried). -/
def jsonSyntaxError : JsError :=
  ⟨none, none, some "Unexpected token o in JSON at position 0"⟩

/-- `JSON.parse`, modelled at the single input the counterexample probes:
on the non-JSON body `"not-json"` it throws; elsewhere (never reached in
the counterexample) it vacuously yields a document with no questions
array. -/
def jsonParseW : String → Except JsError ParsedDoc := fun t =>
  if t = "not-json" then Except.error jsonSyntaxError else Except.ok ⟨none⟩

/-- C3 as stated is false on the code: an *empty* response body yields
`[]`, but a *malformed* one (not parseable as JSON) does not — the
`JSON.parse` exception is re-thrown by the surrounding catch, is not a
rate-limit error, and so propagates as a page-level failure instead of
an empty question list.  Concretely, with a valid key and a response
body `"not-json"`, the call fails with the syntax error rather than
returning an empty sequence. -/
theorem extract_malformed_counterexample :
    (extractQuestionsFromPage (some "key") none (fun _ => Except.ok (some "not-json"))
        jsonParseW 1 0).1 = Except.error jsonSyntaxError ∧
    (extractQuestionsFromPage (some "key") none (fun _ => Except.ok (some "not-json"))
        jsonParseW 1 0).1 ≠ Except.ok [] := by
  have h : (extractQuestionsFromPage (some "key") none (fun _ => Except.ok (some "not-json"))
      jsonParseW 1 0).1 = Except.error jsonSyntaxError := by
    rw [extract_key_present (some "key") none _ _ 1 0 (by decide)]
    rw [retryWithBackoff_err_fatal _ MAX_RETRIES INITIAL_RETRY_DELAY 0 jsonSyntaxError
      (by rfl) (by decide)]
  exact ⟨h, by rw [h]; exact fun hc => Except.noConfusion hc⟩

/-- C3 amended: an empty (or absent) response body, or a body that parses
as JSON but carries no `questions` array, yields an empty question
sequence rather than an error; but a body on which `JSON.parse` throws
propagates the parse error (a page-level failure) — it is not converted
into an empty sequence. -/
theorem extract_body_handling (envKey localKey : Option String)
    (attempt : Nat → Except JsError (Option String))
    (jsonParse : String → Except JsError ParsedDoc) (pageNumber now : Int)
    (hkey : getApiKey envKey localKey ≠ "") :
    (attempt 0 = Except.ok none →
      (extractQuestionsFromPage envKey localKey attempt jsonParse pageNumber now).1 =
        Except.ok []) ∧
    (attempt 0 = Except.ok (some "") →
      (extractQuestionsFromPage envKey localKey attempt jsonParse pageNumber now).1 =
        Except.ok []) ∧
    (∀ t doc, attempt 0 = Except.ok (some t) → t ≠ "" → jsonParse t = Except.ok doc →
      doc.questions = none →
      (extractQuestionsFromPage envKey localKey attempt jsonParse pageNumber now).1 =
        Except.ok []) ∧
    (∀ t e, attempt 0 = Except.ok (some t) → t ≠ "" → jsonParse t = Except.error e →
      isRateLimitError e = false →
      (extractQuestionsFromPage envKey localKey attempt jsonParse pageNumber now).1 =
        Except.error e) := by
  rw [extract_key_present envKey localKey attempt jsonParse pageNumber now hkey]
  refine ⟨?_, ?_, ?_, ?_⟩
  · intro h
    rw [retryWithBackoff_ok _ MAX_RETRIES INITIAL_RETRY_DELAY 0 []
      (by rw [h]; rfl)]
  · intro h
    rw [retryWithBackoff_ok _ MAX_RETRIES INITIAL_RETRY_DELAY 0 []
      (by rw [h]; simp [handleResponseText])]
  · intro t doc h ht hparse hq
    rw [retryWithBackoff_ok _ MAX_RETRIES INITIAL_RETRY_DELAY 0 []
      (by rw [h]; simp [handleResponseText, ht, hparse, hq])]
  · intro t e h ht hparse hrl
    rw [retryWithBackoff_err_fatal _ MAX_RETRIES INITIAL_RETRY_DELAY 0 e
      (by rw [h]; simp [handleResponseText, ht, hparse]) hrl]

/-- Witness for `extract_body_handling`: an absent response body yields
the empty question list. -/
theorem extract_body_handling_witness :
    (extractQuestionsFromPage (some "key") none (fun _ => Except.ok none)
        jsonParseW 1 0).1 = Except.ok [] :=
  (extract_body_handling (some "key") none (fun _ => Except.ok none)
    jsonParseW 1 0 (by decide)).1 rfl

/-- Equality of everything in a question except the five diagram
image/caption slot pairs (main and per-option `diagram_url` /
`diagram_alt_text`): the identity of the question, its text, its page
and question numbers, its option texts and all its bounding boxes. -/
def structEq (q q' : Question) : Prop :=
  q'.id = q.id ∧ q'.question_number = q.question_number ∧
  q'.question_text = q.question_text ∧ q'.page_number = q.page_number ∧
  q'.has_diagram = q.has_diagram ∧ q'.diagram_bbox = q.diagram_bbox ∧
  q'.options.A = q.options.A ∧ q'.options.B = q.options.B ∧
  q'.options.C = q.options.C ∧ q'.options.D = q.options.D ∧
  (∀ l, optBbox l q'.options = optBbox l q.options)

theorem structEq_refl (q : Question) : structEq q q :=
  ⟨rfl, rfl, rfl, rfl, rfl, rfl, rfl, rfl, rfl, rfl, fun _ => rfl⟩

theorem structEq_trans (q q1 q2 : Question) (h1 : structEq q q1) (h2 : structEq q1 q2) :
    structEq q q2 := by
  obtain ⟨a1, b1, c1, d1, e1, f1, g1, i1, j1, k1, l1⟩ := h1
  obtain ⟨a2, b2, c2, d2, e2, f2, g2, i2, j2, k2, l2⟩ := h2
  exact ⟨a2.trans a1, b2.trans b1, c2.trans c1, d2.trans d1, e2.trans e1, f2.trans f1,
    g2.trans g1, i2.trans i1, j2.trans j1, k2.trans k1, fun l => (l2 l).trans (l1 l)⟩

theorem structEq_setMain (q : Question) (u t : Option String) :
    structEq q { q with diagram_url := u, diagram_alt_text := t } :=
  ⟨rfl, rfl, rfl, rfl, rfl, rfl, rfl, rfl, rfl, rfl, fun _ => rfl⟩

theorem structEq_setOpt (q : Question) (l : OptLabel) (u a : String) :
    structEq q { q with options := setOptUrlAlt l u a q.options } := by
  refine ⟨rfl, rfl, rfl, rfl, rfl, rfl, ?_, ?_, ?_, ?_, fun l' => ?_⟩ <;> cases l <;> rfl

theorem optSlots_setOpt_ne (o : QOptions) (l l' : OptLabel) (h : l' ≠ l) (u a : String) :
    optUrl l' (setOptUrlAlt l u a o) = optUrl l' o ∧
    optAltText l' (setOptUrlAlt l u a o) = optAltText l' o := by
  cases l <;> cases l' <;> simp_all [optUrl, optAltText, setOptUrlAlt]

theorem enrichMain_ok (crop : List Int → String) (ocr : String → Except JsError String)
    (hocr : ∀ u, ∃ s, ocr u = Except.ok s) (q : Question) :
    ∃ q', enrichMain crop ocr q = Except.ok q' ∧ structEq q q' ∧
      (∀ l, optUrl l q'.options = optUrl l q.options ∧
        optAltText l q'.options = optAltText l q.options) ∧
      (∀ bb, q.diagram_bbox = some bb → crop bb = "" → q' = q) := by
  rcases hhd : q.has_diagram with _ | _
  · refine ⟨q, ?_, structEq_refl q, fun _ => ⟨rfl, rfl⟩, fun _ _ _ => rfl⟩
    unfold enrichMain
    rw [hhd]
  · rcases hbb : q.diagram_bbox with _ | bbox
    · refine ⟨q, ?_, structEq_refl q, fun _ => ⟨rfl, rfl⟩,
        fun bb hbb2 _ => Option.noConfusion hbb2⟩
      unfold enrichMain
      rw [hhd, hbb]
    · by_cases hurl : crop bbox = ""
      · refine ⟨q, ?_, structEq_refl q, fun _ => ⟨rfl, rfl⟩, fun _ _ _ => rfl⟩
        unfold enrichMain
        rw [hhd, hbb]
        simp [hurl]
      · obtain ⟨s, hs⟩ := hocr (crop bbox)
        refine ⟨{ q with diagram_url := some (crop bbox), diagram_alt_text := some s },
          ?_, structEq_setMain q _ _, fun _ => ⟨rfl, rfl⟩, ?_⟩
        · unfold enrichMain
          rw [hhd, hbb]
          simp [hurl, hs]
        · intro bb hbb2 hcrop
          rw [Option.some.injEq] at hbb2
          exact absurd (hbb2 ▸ hcrop) hurl

theorem enrichOption_ok (crop : List Int → String) (ocr : String → Except JsError String)
    (hocr : ∀ u, ∃ s, ocr u = Except.ok s) (l : OptLabel) (q : Question) :
    ∃ q', enrichOption crop ocr l q = Except.ok q' ∧ structEq q q' ∧
      q'.diagram_url = q.diagram_url ∧ q'.diagram_alt_text = q.diagram_alt_text ∧
      (∀ l', l' ≠ l → optUrl l' q'.options = optUrl l' q.options ∧
        optAltText l' q'.options = optAltText l' q.options) ∧
      (∀ bb, optBbox l q.options = some bb → bb.length = 4 → crop bb = "" → q' = q) := by
  rcases hb : optBbox l q.options with _ | bbox
  · refine ⟨q, ?_, structEq_refl q, rfl, rfl, fun _ _ => ⟨rfl, rfl⟩,
      fun bb hbb2 _ _ => Option.noConfusion hbb2⟩
    unfold enrichOption
    rw [hb]
  · by_cases hlen : bbox.length = 4
    · by_cases hurl : crop bbox = ""
      · refine ⟨q, ?_, structEq_refl q, rfl, rfl,
          fun _ _ => ⟨rfl, rfl⟩, fun _ _ _ _ => rfl⟩
        unfold enrichOption
        rw [hb]
        simp [hlen, hurl]
      · obtain ⟨s, hs⟩ := hocr (crop bbox)
        refine ⟨{ q with options := setOptUrlAlt l (crop bbox) s q.options },
          ?_, structEq_setOpt q l _ _, rfl, rfl,
          fun l' hl' => optSlots_setOpt_ne q.options l l' hl' _ _, ?_⟩
        · unfold enrichOption
          rw [hb]
          simp [hlen, hurl, hs]
        · intro bb hbb2 _ hcrop
          rw [Option.some.injEq] at hbb2
          exact absurd (hbb2 ▸ hcrop) hurl
    · refine ⟨q, ?_, structEq_refl q, rfl, rfl,
        fun _ _ => ⟨rfl, rfl⟩, fun _ _ _ _ => rfl⟩
      unfold enrichOption
      rw [hb]
      simp [hlen]

theorem enrichQuestion_keeps (crop : List Int → String) (ocr : String → Except JsError String)
    (hocr : ∀ u, ∃ s, ocr u = Except.ok s) (q : Question) :
    ∃ q', enrichQuestion crop ocr q = Except.ok q' ∧ structEq q q' ∧
      (∀ bb, q.diagram_bbox = some bb → crop bb = "" →
        q'.diagram_url = q.diagram_url ∧ q'.diagram_alt_text = q.diagram_alt_text) ∧
      (∀ l bb, optBbox l q.options = some bb → bb.length = 4 → crop bb = "" →
        optUrl l q'.options = optUrl l q.options ∧
        optAltText l q'.options = optAltText l q.options) := by
  obtain ⟨q1, e1, s1, p1, m1⟩ := enrichMain_ok crop ocr hocr q
  obtain ⟨q2, e2, s2, du2, da2, o2, z2⟩ := enrichOption_ok crop ocr hocr OptLabel.A q1
  obtain ⟨q3, e3, s3, du3, da3, o3, z3⟩ := enrichOption_ok crop ocr hocr OptLabel.B q2
  obtain ⟨q4, e4, s4, du4, da4, o4, z4⟩ := enrichOption_ok crop ocr hocr OptLabel.C q3
  obtain ⟨q5, e5, s5, du5, da5, o5, z5⟩ := enrichOption_ok crop ocr hocr OptLabel.D q4
  have hrun : enrichQuestion crop ocr q = Except.ok q5 := by
    simp [enrichQuestion, e1, e2, e3, e4, e5, Bind.bind, Except.bind]
  have s15 : structEq q q5 :=
    structEq_trans _ _ _ s1 (structEq_trans _ _ _ s2
      (structEq_trans _ _ _ s3 (structEq_trans _ _ _ s4 s5)))
  refine ⟨q5, hrun, s15, ?_, ?_⟩
  · intro bb hbb hcrop
    have hq1 : q1 = q := m1 bb hbb hcrop
    subst hq1
    rw [du5, du4, du3, du2, da5, da4, da3, da2]
    exact ⟨rfl, rfl⟩
  · intro l bb hbb hlen hcrop
    cases l with
    | A =>
      have hbb1 : optBbox OptLabel.A q1.options = some bb := by
        rw [s1.2.2.2.2.2.2.2.2.2.2 OptLabel.A, hbb]
      have hq2 : q2 = q1 := z2 bb hbb1 hlen hcrop
      subst hq2
      have hA3 := o3 OptLabel.A (by intro h; cases h)
      have hA4 := o4 OptLabel.A (by intro h; cases h)
      have hA5 := o5 OptLabel.A (by intro h; cases h)
      exact ⟨((hA5.1.trans hA4.1).trans hA3.1).trans ((p1 OptLabel.A).1),
        ((hA5.2.trans hA4.2).trans hA3.2).trans ((p1 OptLabel.A).2)⟩
    | B =>
      have hbb2 : optBbox OptLabel.B q2.options = some bb := by
        rw [s2.2.2.2.2.2.2.2.2.2.2 OptLabel.B, s1.2.2.2.2.2.2.2.2.2.2 OptLabel.B, hbb]
      have hq3 : q3 = q2 := z3 bb hbb2 hlen hcrop
      subst hq3
      have hB2 := o2 OptLabel.B (by intro h; cases h)
      have hB4 := o4 OptLabel.B (by intro h; cases h)
      have hB5 := o5 OptLabel.B (by intro h; cases h)
      exact ⟨((hB5.1.trans hB4.1).trans hB2.1).trans ((p1 OptLabel.B).1),
        ((hB5.2.trans hB4.2).trans hB2.2).trans ((p1 OptLabel.B).2)⟩
    | C =>
      have hbb3 : optBbox OptLabel.C q3.options = some bb := by
        rw [s3.2.2.2.2.2.2.2.2.2.2 OptLabel.C, s2.2.2.2.2.2.2.2.2.2.2 OptLabel.C,
          s1.2.2.2.2.2.2.2.2.2.2 OptLabel.C, hbb]
      have hq4 : q4 = q3 := z4 bb hbb3 hlen hcrop
      subst hq4
      have hC2 := o2 OptLabel.C (by intro h; cases h)
      have hC3 := o3 OptLabel.C (by intro h; cases h)
      have hC5 := o5 OptLabel.C (by intro h; cases h)
      exact ⟨((hC5.1.trans hC3.1).trans hC2.1).trans ((p1 OptLabel.C).1),
        ((hC5.2.trans hC3.2).trans hC2.2).trans ((p1 OptLabel.C).2)⟩
    | D =>
      have hbb4 : optBbox OptLabel.D q4.options = some bb := by
        rw [s4.2.2.2.2.2.2.2.2.2.2 OptLabel.D, s3.2.2.2.2.2.2.2.2.2.2 OptLabel.D,
          s2.2.2.2.2.2.2.2.2.2.2 OptLabel.D, s1.2.2.2.2.2.2.2.2.2.2 OptLabel.D, hbb]
      have hq5 : q5 = q4 := z5 bb hbb4 hlen hcrop
      subst hq5
      have hD2 := o2 OptLabel.D (by intro h; cases h)
      have hD3 := o3 OptLabel.D (by intro h; cases h)
      have hD4 := o4 OptLabel.D (by intro h; cases h)
      exact ⟨((hD4.1.trans hD3.1).trans hD2.1).trans ((p1 OptLabel.D).1),
        ((hD4.2.trans hD3.2).trans hD2.2).trans ((p1 OptLabel.D).2)⟩

theorem mapM_ok_of_forall {R : Question → Question → Prop}
    {f : Question → Except JsError Question}
    (h : ∀ q, ∃ q', f q = Except.ok q' ∧ R q q') :
    ∀ qs : List Question, ∃ qs', qs.mapM f = Except.ok qs' ∧ List.Forall₂ R qs qs'
  | [] => ⟨[], by rw [List.mapM_nil]; rfl, List.Forall₂.nil⟩
  | q :: qs => by
    obtain ⟨q', hq, hr⟩ := h q
    obtain ⟨qs', hqs, hrs⟩ := mapM_ok_of_forall h qs
    refine ⟨q' :: qs', ?_, List.Forall₂.cons hr hrs⟩
    rw [List.mapM_cons]
    show (f q >>= fun x => qs.mapM f >>= fun xs => pure (x :: xs)) = Except.ok (q' :: qs')
    rw [hq]
    show (qs.mapM f >>= fun xs => pure (q' :: xs)) = Except.ok (q' :: qs')
    rw [hqs]
    rfl

/-- The relation established between each extracted question and its
enriched form when every launched caption call succeeds: the question is
retained with its identity, texts, numbers and boxes intact, and any
slot whose crop resolved empty keeps its image/caption fields
unchanged. -/
def keptWith (crop : List Int → String) (q q' : Question) : Prop :=
  structEq q q' ∧
  (∀ bb, q.diagram_bbox = some bb → crop bb = "" →
    q'.diagram_url = q.diagram_url ∧ q'.diagram_alt_text = q.diagram_alt_text) ∧
  (∀ l bb, optBbox l q.options = some bb → bb.length = 4 → crop bb = "" →
    optUrl l q'.options = optUrl l q.options ∧
    optAltText l q'.options = optAltText l q.options)

/-- C4 amended: provided every *launched caption call succeeds*, a failed
crop (one that resolves to the empty string) never removes a question —
the page keeps all its questions, in order, each related to its
extracted original by `keptWith`: identity, text, numbers, option texts
and boxes intact, and every slot whose crop failed has its diagram
image/caption fields left unchanged (unset).  A terminally failing
caption call, however, is not isolated to its slot: the rejection
propagates to the page level and the page contributes zero questions
(see the counterexample). -/
theorem crop_failure_keeps_question (crop : List Int → String)
    (ocr : String → Except JsError String) (hocr : ∀ u, ∃ s, ocr u = Except.ok s)
    (qs : List Question) :
    ∃ qs', processPage (Except.ok qs) crop ocr = qs' ∧
      List.Forall₂ (keptWith crop) qs qs' ∧ qs'.length = qs.length := by
  have h : ∀ q, ∃ q', enrichQuestion crop ocr q = Except.ok q' ∧ keptWith crop q q' := by
    intro q
    obtain ⟨q', he, hs, hmain, hopt⟩ := enrichQuestion_keeps crop ocr hocr q
    exact ⟨q', he, hs, hmain, hopt⟩
  obtain ⟨qs', hmap, hrel⟩ := mapM_ok_of_forall h qs
  refine ⟨qs', ?_, hrel, hrel.length_eq.symm⟩
  have hred : processPage (Except.ok qs) crop ocr =
      match qs.mapM (enrichQuestion crop ocr) with
      | Except.error _ => []
      | Except.ok enriched => enriched := rfl
  rw [hred, hmap]

/-- A concrete question whose main slot carries a bounding box, used by
the C4 scenarios. -/
def qDiagW : Question :=
  { id := "p1-q0-0"
    question_number := 1
    question_text := "diagram question"
    has_diagram := true
    options := optsW
    page_number := 1
    diagram_bbox := some [100, 100, 200, 200] }

/-- Witness for `crop_failure_keeps_question`: the main crop of `qDiagW`
resolves empty, captions always succeed, and the page keeps the
question. -/
theorem crop_failure_keeps_question_witness :
    ∃ qs', processPage (Except.ok [qDiagW]) (fun _ => "") (fun _ => Except.ok "cap") = qs' ∧
      List.Forall₂ (keptWith (fun _ => "")) [qDiagW] qs' ∧ qs'.length = [qDiagW].length :=
  crop_failure_keeps_question (fun _ => "") (fun _ => Except.ok "cap")
    (fun _ => ⟨"cap", rfl⟩) [qDiagW]

/-- C4 as stated is false on the code: when a question's crop succeeds
but the follow-up caption (`performOCR`) call fails terminally, the
question is *not* retained with an unset slot — the rejection propagates
through the question's `Promise.all` into the page-level catch, and the
page contributes zero questions, dropping both the question itself and
its page's other questions (here `qW 1`, which has no diagram at
all). -/
theorem caption_failure_drops_question_counterexample :
    processPage (Except.ok [qDiagW, qW 1]) (fun _ => "url") (fun _ => Except.error errW) =
      [] ∧
    qDiagW ∉ processPage (Except.ok [qDiagW, qW 1]) (fun _ => "url")
      (fun _ => Except.error errW) ∧
    qW 1 ∉ processPage (Except.ok [qDiagW, qW 1]) (fun _ => "url")
      (fun _ => Except.error errW) := by
  have h : processPage (Except.ok [qDiagW, qW 1]) (fun _ => "url")
      (fun _ => Except.error errW) = [] := rfl
  exact ⟨h, by rw [h]; exact List.not_mem_nil _, by rw [h]; exact List.not_mem_nil _⟩

theorem foldl_append_hoist (blockf : Question → String) (qs : List Question) :
    ∀ init : String,
      qs.foldl (fun t q => t ++ blockf q) init =
        init ++ qs.foldl (fun t q => t ++ blockf q) "" := by
  induction qs with
  | nil =>
    intro init
    simp
  | cons x qs ih =>
    intro init
    show List.foldl _ (init ++ blockf x) qs = init ++ List.foldl _ ("" ++ blockf x) qs
    rw [ih (init ++ blockf x), ih ("" ++ blockf x), String.empty_append,
      String.append_assoc]

theorem strContains_of_parts (pre post : String) {s mid : String}
    (h : s = pre ++ mid ++ post) : strContains s mid :=
  ⟨pre, post, h⟩

/-- C9 amended: the plain-text export is the fixed header followed, in
document order, by one block per question; each block reproduces the
question number (as `QUESTION n`), the question text, and the four
option texts, and carries the fixed marker `[Main Diagram Attached]`
exactly when a (truthy) main diagram reference is attached.  The
diagram image reference itself, the main caption text and the per-option
diagram references/captions are not reproduced (see the
counterexample). -/
theorem exportTXT_content (fileName dateStr : String) (qs : List Question) :
    handleExportTXT fileName dateStr qs =
      ("QUESTAI EXTRACTION REPORT\nFILE: " ++ fileName ++ "\nDATE: " ++ dateStr ++ "\n\n")
        ++ qs.foldl (fun t q => t ++ questionTxtBlock q) "" ∧
    (∀ q, q ∈ qs →
      strContains (handleExportTXT fileName dateStr qs) (questionTxtBlock q)) ∧
    (∀ q : Question,
      strContains (questionTxtBlock q) ("QUESTION " ++ toString q.question_number) ∧
      strContains (questionTxtBlock q) q.question_text ∧
      strContains (questionTxtBlock q) ("(A) " ++ q.options.A) ∧
      strContains (questionTxtBlock q) ("(B) " ++ q.options.B) ∧
      strContains (questionTxtBlock q) ("(C) " ++ q.options.C) ∧
      strContains (questionTxtBlock q) ("(D) " ++ q.options.D) ∧
      (truthyStr q.diagram_url = true →
        strContains (questionTxtBlock q) "[Main Diagram Attached]")) := by
  refine ⟨foldl_append_hoist questionTxtBlock qs _, ?_, ?_⟩
  · intro q hq
    unfold handleExportTXT
    generalize ("QUESTAI EXTRACTION REPORT\nFILE: " ++ fileName ++ "\nDATE: " ++ dateStr
      ++ "\n\n") = init
    clear fileName dateStr
    induction qs generalizing init with
    | nil => cases hq
    | cons x qs ih =>
      rcases List.mem_cons.mp hq with rfl | hmem
      · refine ⟨init, qs.foldl (fun t p => t ++ questionTxtBlock p) "", ?_⟩
        show List.foldl _ (init ++ questionTxtBlock q) qs = _
        rw [foldl_append_hoist questionTxtBlock qs (init ++ questionTxtBlock q),
          String.append_assoc]
      · exact ih hmem _
  · intro q
    refine ⟨?_, ?_, ?_, ?_, ?_, ?_, ?_⟩
    · exact strContains_of_parts ""
        ("\n--------------------------\n" ++ q.question_text ++ "\n\n" ++ "(A) "
          ++ q.options.A ++ "\n(B) " ++ q.options.B ++ "\n(C) " ++ q.options.C
          ++ "\n(D) " ++ q.options.D ++ "\n\n"
          ++ (if truthyStr q.diagram_url then "[Main Diagram Attached]\n" else "") ++ "\n")
        (by apply String.ext; simp [questionTxtBlock, String.data_append, List.append_assoc])
    · exact strContains_of_parts
        ("QUESTION " ++ toString q.question_number ++ "\n--------------------------\n")
        ("\n\n" ++ "(A) " ++ q.options.A ++ "\n(B) " ++ q.options.B ++ "\n(C) "
          ++ q.options.C ++ "\n(D) " ++ q.options.D ++ "\n\n"
          ++ (if truthyStr q.diagram_url then "[Main Diagram Attached]\n" else "") ++ "\n")
        (by apply String.ext; simp [questionTxtBlock, String.data_append, List.append_assoc])
    · exact strContains_of_parts
        ("QUESTION " ++ toString q.question_number ++ "\n--------------------------\n"
          ++ q.question_text ++ "\n\n")
        ("\n(B) " ++ q.options.B ++ "\n(C) " ++ q.options.C ++ "\n(D) " ++ q.options.D
          ++ "\n\n"
          ++ (if truthyStr q.diagram_url then "[Main Diagram Attached]\n" else "") ++ "\n")
        (by apply String.ext; simp [questionTxtBlock, String.data_append, List.append_assoc])
    · exact strContains_of_parts
        ("QUESTION " ++ toString q.question_number ++ "\n--------------------------\n"
          ++ q.question_text ++ "\n\n" ++ "(A) " ++ q.options.A ++ "\n")
        ("\n(C) " ++ q.options.C ++ "\n(D) " ++ q.options.D ++ "\n\n"
          ++ (if truthyStr q.diagram_url then "[Main Diagram Attached]\n" else "") ++ "\n")
        (by apply String.ext; simp [questionTxtBlock, String.data_append, List.append_assoc])
    · exact strContains_of_parts
        ("QUESTION " ++ toString q.question_number ++ "\n--------------------------\n"
          ++ q.question_text ++ "\n\n" ++ "(A) " ++ q.options.A ++ "\n(B) "
          ++ q.options.B ++ "\n")
        ("\n(D) " ++ q.options.D ++ "\n\n"
          ++ (if truthyStr q.diagram_url then "[Main Diagram Attached]\n" else "") ++ "\n")
        (by apply String.ext; simp [questionTxtBlock, String.data_append, List.append_assoc])
    · exact strContains_of_parts
        ("QUESTION " ++ toString q.question_number ++ "\n--------------------------\n"
          ++ q.question_text ++ "\n\n" ++ "(A) " ++ q.options.A ++ "\n(B) "
          ++ q.options.B ++ "\n(C) " ++ q.options.C ++ "\n")
        ("\n\n"
          ++ (if truthyStr q.diagram_url then "[Main Diagram Attached]\n" else "") ++ "\n")
        (by apply String.ext; simp [questionTxtBlock, String.data_append, List.append_assoc])
    · intro htr
      exact strContains_of_parts
        ("QUESTION " ++ toString q.question_number ++ "\n--------------------------\n"
          ++ q.question_text ++ "\n\n" ++ "(A) " ++ q.options.A ++ "\n(B) "
          ++ q.options.B ++ "\n(C) " ++ q.options.C ++ "\n(D) " ++ q.options.D
          ++ "\n\n")
        ("\n" ++ "\n")
        (by apply String.ext; simp [questionTxtBlock, String.data_append, List.append_assoc, htr])

/-- Witness for `exportTXT_content`: the block of a concrete question
appears in the export of a one-question list. -/
theorem exportTXT_content_witness :
    strContains (handleExportTXT "doc.pdf" "2025-01-01" [qW 1]) (questionTxtBlock (qW 1)) :=
  (exportTXT_content "doc.pdf" "2025-01-01" [qW 1]).2.1 (qW 1) (List.mem_singleton_self _)

/-- A concrete fully enriched question: a main diagram reference and a
caption text are attached. -/
def qExportW : Question :=
  { id := "p1-q0-0"
    question_number := 1
    question_text := "diagram question"
    has_diagram := true
    options := optsW
    page_number := 1
    diagram_bbox := some [100, 100, 200, 200]
    diagram_url := some "DIAGREF-7"
    diagram_alt_text := some "CAPTION-UNIQUE-9" }

set_option maxRecDepth 4000 in
/-- C9 as stated is false on the code: the plain-text export does not
reproduce an attached diagram's caption text, nor the diagram image
reference itself — it only emits the fixed marker line
`[Main Diagram Attached]`.  For a concrete question carrying a (truthy)
diagram reference and a caption, neither string occurs anywhere in the
export output. -/
theorem exportTXT_caption_missing_counterexample :
    truthyStr qExportW.diagram_url = true ∧
    qExportW.diagram_alt_text = some "CAPTION-UNIQUE-9" ∧
    ¬ strContains (handleExportTXT "doc.pdf" "2025-01-01" [qExportW]) "CAPTION-UNIQUE-9" ∧
    ¬ strContains (handleExportTXT "doc.pdf" "2025-01-01" [qExportW]) "DIAGREF-7" := by
  refine ⟨rfl, rfl, ?_, ?_⟩ <;> decide
